import Mathlib

/-!
Shallow embedding of the FILL-IT trip-history service
(`c_triphistory.py`): five HTTP endpoints over an external
hierarchical key-value store of trip records.  Store nodes are
JSON-like values; the store at `/trips` is an association list from
booking id to trip record.  Each endpoint is modelled as a function
from its arguments, an explicit clock, and the store, to either an
HTTP error or a result (new store plus response).
-/

/-- JSON-like value held by the store: `null`, a string, or a nested
object (Python dict, insertion ordered). -/
inductive Val where
  | nul : Val
  | str : String → Val
  | obj : List (String × Val) → Val
deriving Repr

abbrev Obj := List (String × Val)

/-- The `/trips` node: booking id → trip record value. -/
abbrev Store := List (String × Val)

/-- Python `d.get(k)` on a dict: first binding of the key, if any. -/
def dGet : Obj → String → Option Val
  | [], _ => none
  | (k, v) :: rest, key => if k = key then some v else dGet rest key

/-- Python `d.get(k, default)` on a dict. -/
def dGetD (m : Obj) (key : String) (dflt : Val) : Val :=
  (dGet m key).getD dflt

/-- Python `d[k] = v` on a dict: replace the first binding in place,
else append at the end (insertion order). -/
def dSet : Obj → String → Val → Obj
  | [], key, v => [(key, v)]
  | (k, w) :: rest, key, v =>
      if k = key then (key, v) :: rest else (k, w) :: dSet rest key v

/-- Merge a list of key/value pairs into a dict, left to right
(Python `dict.update` / the store client's partial-merge update). -/
def dMerge (m : Obj) (kvs : Obj) : Obj :=
  kvs.foldl (fun acc kv => dSet acc kv.1 kv.2) m

/-- Firebase `delete` of a child key. -/
def dDel : Obj → String → Obj
  | [], _ => []
  | (k, v) :: rest, key => if k = key then rest else (k, v) :: dDel rest key

/-- Exceptions a request handler can raise: an `HTTPException` with
status code and detail, or another Python-level error. -/
inductive PyEx where
  | http : Nat → String → PyEx
  | pyerr : String → PyEx
deriving Repr, DecidableEq

/-- Python `str(e)` used when a caught exception is embedded into a
500 detail; Starlette prints an `HTTPException` as `code: detail`. -/
def exStr : PyEx → String
  | .http c d => toString c ++ ": " ++ d
  | .pyerr m => m

/-- The `except Exception` wrapper at each endpoint's boundary: any
exception raised inside the `try` block — including an
`HTTPException`, which subclasses `Exception` — is replaced by a 500
whose detail embeds the original message. -/
def wrap500 (prefixMsg : String) : Except PyEx α → Except PyEx α
  | .ok a => .ok a
  | .error e => .error (.http 500 (prefixMsg ++ exStr e))

/-- Model of `x.get(k)` where `x` may be any value (line 78 etc.): on a dict
it is a lookup, on a string or `None` it raises `AttributeError`. -/
def pyGet : Val → String → Except PyEx (Option Val)
  | .obj m, key => .ok (dGet m key)
  | .str _, _ => .error (.pyerr "AttributeError: str has no attribute get")
  | .nul, _ => .error (.pyerr "AttributeError: NoneType has no attribute get")

/-- Model of `x.get(k, default)` where `x` may be any value. -/
def pyGetD (x : Val) (key : String) (dflt : Val) : Except PyEx Val :=
  match pyGet x key with
  | .ok (some v) => .ok v
  | .ok none => .ok dflt
  | .error e => .error e

/-- Python truthiness of a store value: `None`, `""` and `{}` are
falsy. -/
def isFalsy : Val → Bool
  | .nul => true
  | .str s => s = ""
  | .obj m => m.isEmpty

/-- Does an optional value equal a given string (Python `== "s"`)? -/
def optValEqStr : Option Val → String → Bool
  | some (.str t), s => t = s
  | _, _ => false

/-- A naive Python `datetime`: date plus time of day. -/
structure PDateTime where
  year : Nat
  month : Nat
  day : Nat
  hour : Nat
  minute : Nat
  second : Nat
deriving Repr, DecidableEq

/-- Naive `datetime` comparison: lexicographic on the six components. -/
def dtLt (a b : PDateTime) : Bool :=
  if a.year ≠ b.year then decide (a.year < b.year)
  else if a.month ≠ b.month then decide (a.month < b.month)
  else if a.day ≠ b.day then decide (a.day < b.day)
  else if a.hour ≠ b.hour then decide (a.hour < b.hour)
  else if a.minute ≠ b.minute then decide (a.minute < b.minute)
  else decide (a.second < b.second)

/-- Proleptic-Gregorian leap year, as `datetime` uses. -/
def isLeap (y : Nat) : Bool :=
  y % 4 = 0 && (y % 100 ≠ 0 || y % 400 = 0)

/-- Days in a month, as `datetime` validates. -/
def daysInMonth (y m : Nat) : Nat :=
  if m = 2 then (if isLeap y then 29 else 28)
  else if m = 4 ∨ m = 6 ∨ m = 9 ∨ m = 11 then 30
  else 31

/-- A parsed calendar date (day, month, year). -/
structure PDate where
  day : Nat
  month : Nat
  year : Nat
deriving Repr, DecidableEq

/-- Split a character list on `'/'` (Python `s.split('/')`). -/
def splitOnSlash : List Char → List (List Char)
  | [] => [[]]
  | c :: rest =>
      match splitOnSlash rest with
      | [] => if c = '/' then [[], []] else [[c]]
      | h :: t => if c = '/' then [] :: h :: t else (c :: h) :: t

/-- Numeric value of a list of decimal digits. -/
def digitsVal (cs : List Char) : Nat :=
  cs.foldl (fun n c => n * 10 + (c.toNat - 48)) 0

/-- Model of `datetime.strptime(s, "%d/%m/%Y")`: day and month as one or two
digits, year as exactly four digits, all range-checked (a year 0 or a
day out of range for the month makes the constructor raise, which the
caller catches). Returns `none` where Python raises. -/
def parseDate (s : String) : Option PDate :=
  match splitOnSlash s.data with
  | [ds, ms, ys] =>
      if ds ≠ [] ∧ ds.length ≤ 2 ∧ ds.all Char.isDigit ∧
         ms ≠ [] ∧ ms.length ≤ 2 ∧ ms.all Char.isDigit ∧
         ys.length = 4 ∧ ys.all Char.isDigit then
        let d := digitsVal ds
        let m := digitsVal ms
        let y := digitsVal ys
        if 1 ≤ y ∧ 1 ≤ m ∧ m ≤ 12 ∧ 1 ≤ d ∧ d ≤ daysInMonth y m then
          some ⟨d, m, y⟩
        else none
      else none
  | _ => none

/-- The `datetime` produced by `strptime` with a date-only format:
the parsed date at midnight. -/
def midnight (d : PDate) : PDateTime :=
  ⟨d.year, d.month, d.day, 0, 0, 0⟩

/-- The bearer check shared by all five endpoints (lines 52, 124,
174, 215, 250): fail when the header is absent, empty (falsy), or
does not start with `"Bearer "`. -/
def authFail : Option String → Bool
  | none => true
  | some s => s = "" || !(("Bearer ".data).isPrefixOf s.data)

/-- Detail of the 401 raised by the bearer check. -/
def authMsg : String := "Invalid or missing authorization header"

/-- Project a value known to be a dict to its bindings. -/
def objOf : Val → Obj
  | .obj m => m
  | _ => []

/-- Does a value equal a given string? -/
def valIsStr : Val → String → Bool
  | .str t, s => t = s
  | _, _ => false

/-- Response record of `get_trip_history` for one trip (lines
88–105): top-level fields as stored (JSON `null` for a missing key),
status fields read from the status sub-record with `status`
defaulting to `"pending"`. -/
structure TripOut where
  booking_id : String
  customer_email : Option Val
  from_location : Option Val
  to_location : Option Val
  date : Option Val
  created_at : Option Val
  updated_at : Option Val
  status_status : Val
  driver_email : Option Val
  driver_name : Option Val
  driver_phone : Option Val
  vehicle_number : Option Val
  assigned_at : Option Val
  completed_at : Option Val
deriving Repr

/-- The record lines 88–105 build from a trip dict whose status
sub-record is the dict `sm`. -/
def formatWith (tid : String) (trip sm : Obj) : TripOut :=
  { booking_id := tid, customer_email := dGet trip "customer_email",
    from_location := dGet trip "from_location",
    to_location := dGet trip "to_location",
    date := dGet trip "date", created_at := dGet trip "created_at",
    updated_at := dGet trip "updated_at",
    status_status := dGetD sm "status" (.str "pending"),
    driver_email := dGet sm "driver_email",
    driver_name := dGet sm "driver_name",
    driver_phone := dGet sm "driver_phone",
    vehicle_number := dGet sm "vehicle_number",
    assigned_at := dGet sm "assigned_at",
    completed_at := dGet sm "completed_at" }

/-- Lines 88–105: build the response record for one trip.  Raises
(`AttributeError`) when the stored `status` is a non-dict scalar. -/
def formatTrip (tid : String) (trip : Obj) : Except PyEx TripOut :=
  match dGetD trip "status" (.obj []) with
  | .obj sm => .ok (formatWith tid trip sm)
  | _ => .error (.pyerr "AttributeError: value has no attribute get")

/-- Lines 70–75: `strptime` of the stored date, any failure (missing
key, falsy value, non-string, bad format) yielding `None`. -/
def bookingDateOf (trip : Obj) : Option PDate :=
  match dGet trip "date" with
  | some (.str s) => parseDate s
  | _ => none

/-- Line 78: `trip_data.get('status', {}).get('status', 'pending')`. -/
def statusValOf (trip : Obj) : Except PyEx Val :=
  match dGetD trip "status" (.obj []) with
  | .obj sm => .ok (dGetD sm "status" (.str "pending"))
  | _ => .error (.pyerr "AttributeError: value has no attribute get")

/-- Line 79: the expiry condition for one trip — the parsed booking
date (a midnight `datetime`) is strictly before `datetime.now()` and
the status value is `"pending"`. -/
def expiresB (now : PDateTime) (trip : Obj) : Except PyEx Bool :=
  match statusValOf trip with
  | .error e => .error e
  | .ok sv => .ok (match bookingDateOf trip with
      | some d => dtLt (midnight d) now && valIsStr sv "pending"
      | none => false)

/-- The two fields written into the status sub-record on expiry
(lines 82–85). -/
def regretKvs (nowIst : String) : Obj :=
  [("status", Val.str "regret"), ("updated_at", Val.str nowIst)]

/-- One iteration of the history loop minus the store write: whether
the trip expires, and its response record (with the local
`trip_data['status'] = {'status': 'regret'}` replacement on expiry,
line 87). -/
def tripStep (now : PDateTime) (tid : String) (trip : Obj) :
    Except PyEx (Bool × TripOut) :=
  match expiresB now trip with
  | .error e => .error e
  | .ok true =>
      match formatTrip tid (dSet trip "status" (.obj [("status", .str "regret")])) with
      | .error e => .error e
      | .ok out => .ok (true, out)
  | .ok false =>
      match formatTrip tid trip with
      | .error e => .error e
      | .ok out => .ok (false, out)

/-- A Firebase `update` addressed at child `key` of a node: merge
into an existing dict child, else replace the child with the new
fields. -/
def childMergeVal (v : Option Val) (kvs : Obj) : Val :=
  match v with
  | some (.obj m) => .obj (dMerge m kvs)
  | _ => .obj kvs

/-- Lines 81–85: `trip_ref.child('status').update(kvs)` — merge into
the status sub-record of the trip node `tid`. -/
def storeChildMerge (store : Store) (tid key : String) (kvs : Obj) : Store :=
  match dGet store tid with
  | some (.obj m) => dSet store tid (.obj (dSet m key (childMergeVal (dGet m key) kvs)))
  | _ => dSet store tid (.obj [(key, childMergeVal none kvs)])

/-- The history loop (lines 69–105): iterate over the query
snapshot, threading the store through the expiry writes. -/
def processAll (now : PDateTime) (nowIst : String) :
    Store → List (String × Obj) → Except PyEx (Store × List TripOut)
  | st, [] => .ok (st, [])
  | st, (tid, trip) :: rest =>
      match tripStep now tid trip with
      | .error e => .error e
      | .ok (exp, out) =>
          match processAll now nowIst
              (if exp then storeChildMerge st tid "status" (regretKvs nowIst) else st) rest with
          | .error e => .error e
          | .ok (st'', outs) => .ok (st'', out :: outs)

/-- Line 60: `order_by_child('customer_email').equal_to(email)` — the
trips whose `customer_email` child is exactly the given string. -/
def historyMatch (store : Store) (email : String) : List (String × Obj) :=
  store.filterMap (fun e => match e.2 with
    | .obj m => if optValEqStr (dGet m "customer_email") email then some (e.1, m) else none
    | _ => none)

/-- Endpoint `GET /get-trip-history` (lines 47–111).  `now` is
`datetime.now()` and `nowIst` the rendered IST timestamp. -/
def get_trip_history (auth : Option String) (email : String) (now : PDateTime)
    (nowIst : String) (store : Store) : Except PyEx (Store × List TripOut) :=
  if authFail auth then .error (.http 401 authMsg)
  else wrap500 "Failed to fetch trip history: "
    (processAll now nowIst store (historyMatch store email))

/-- Truthiness of the four driver parameters: Python
`all([driver_email, driver_name, driver_phone, vehicle_number])`. -/
def driverFieldsOk (de dn dp vn : Option String) : Bool :=
  [de, dn, dp, vn].all (fun o => match o with | some s => s ≠ "" | none => false)

/-- The ValueError the firebase client raises when `update` is given
anything but a non-empty dict — in particular the list of tuples
built at line 159. -/
def updateListErr : PyEx :=
  .pyerr "Value argument must be a non-empty dictionary."

/-- Endpoint `POST /update-trip-status` (lines 114–165).  After the
404/400 checks, line 159 converts the update dict into a list of
tuples and line 160 passes it to the client's `update`, which rejects
any non-dict argument with `ValueError('Value argument must be a
non-empty dictionary.')` before contacting the store; the blanket
`except` turns that into a 500.  No write to the store ever happens,
so no call reaches the success return at line 161. -/
def update_trip_status (auth : Option String) (booking_id status : String)
    (driver_email driver_name driver_phone vehicle_number : Option String)
    (nowIst : String) (store : Store) : Except PyEx (Store × String) :=
  if authFail auth then .error (.http 401 authMsg)
  else wrap500 "Failed to update trip status: "
    (match dGet store booking_id with
    | none => .error (.http 404 "Trip not found")
    | some v =>
      if isFalsy v then .error (.http 404 "Trip not found")
      else match v with
        | .obj _ =>
            if status = "driver_assigned" then
              if driverFieldsOk driver_email driver_name driver_phone vehicle_number then
                .error updateListErr
              else .error (.http 400 "Driver details required for assignment")
            else .error updateListErr
        | _ => .error (.pyerr "ValueError: cannot convert to dict"))

/-- Summary record returned by `find_nearby_trips` (lines 194–201):
no status and no driver fields. -/
structure TripSummary where
  booking_id : String
  customer_email : Option Val
  from_location : Option Val
  to_location : Option Val
  date : Option Val
  created_at : Option Val
deriving Repr

/-- Line 182: `order_by_child('date').equal_to(date)` — the trip's
`date` child is exactly the given string. -/
def dateMatchB (d : String) : Val → Bool
  | .obj m => optValEqStr (dGet m "date") d
  | _ => false

/-- Lines 194–201: the summary shape appended for a pending trip. -/
def mkSummary (tid : String) (m : Obj) : TripSummary :=
  { booking_id := tid, customer_email := dGet m "customer_email",
    from_location := dGet m "from_location", to_location := dGet m "to_location",
    date := dGet m "date", created_at := dGet m "created_at" }

/-- Lines 191–201: filter the date-matched snapshot to
`status.status == 'pending'` (no default) and summarise. -/
def nearbyLoop : List (String × Val) → Except PyEx (List TripSummary)
  | [] => .ok []
  | (tid, v) :: rest =>
      match v with
      | .obj m =>
          match pyGet (dGetD m "status" (.obj [])) "status" with
          | .error e => .error e
          | .ok svo =>
              match nearbyLoop rest with
              | .error e => .error e
              | .ok outs =>
                  if optValEqStr svo "pending" then .ok (mkSummary tid m :: outs)
                  else .ok outs
      | _ => .error (.pyerr "AttributeError: value has no attribute get")

/-- Endpoint `GET /find-nearby-trips` (lines 168–206); `from_location` is
accepted but unused (the geo filter is an unimplemented stub). -/
def find_nearby_trips (auth : Option String) (from_location date : String)
    (store : Store) : Except PyEx (List TripSummary) :=
  if authFail auth then .error (.http 401 authMsg)
  else wrap500 "Failed to find nearby trips: "
    (nearbyLoop (store.filter (fun e => dateMatchB date e.2)))

/-- Endpoint `PUT /edit-trip/:trip_id` (lines 209–242). -/
def edit_trip (auth : Option String) (trip_id from_location to_location date : String)
    (nowIst : String) (store : Store) : Except PyEx (Store × String) :=
  if authFail auth then .error (.http 401 authMsg)
  else wrap500 "Failed to update trip: "
    (match dGet store trip_id with
    | none => .error (.http 404 "Trip not found")
    | some v =>
      if isFalsy v then .error (.http 404 "Trip not found")
      else match v with
        | .obj m =>
            match dGetD m "status" (.obj []) with
            | .obj sm =>
                if !(optValEqStr (dGet sm "status") "pending") then
                  .error (.http 400 "Can only edit pending trips")
                else
                  .ok (dSet store trip_id (.obj (dMerge m
                         [("from_location", Val.str from_location),
                          ("to_location", Val.str to_location),
                          ("date", Val.str date),
                          ("updated_at", Val.str nowIst)])),
                       "Trip updated successfully")
            | _ => .error (.pyerr "AttributeError: value has no attribute get")
        | _ => .error (.pyerr "AttributeError: value has no attribute get"))

/-- Endpoint `DELETE /delete-trip/:trip_id` (lines 245–271). -/
def delete_trip (auth : Option String) (trip_id : String) (store : Store) :
    Except PyEx (Store × String) :=
  if authFail auth then .error (.http 401 authMsg)
  else wrap500 "Failed to delete trip: "
    (match dGet store trip_id with
    | none => .error (.http 404 "Trip not found")
    | some v =>
      if isFalsy v then .error (.http 404 "Trip not found")
      else match v with
        | .obj m =>
            match dGetD m "status" (.obj []) with
            | .obj sm =>
                if !(optValEqStr (dGet sm "status") "pending") then
                  .error (.http 400 "Can only delete pending trips")
                else
                  .ok (dDel store trip_id, "Trip deleted successfully")
            | _ => .error (.pyerr "AttributeError: value has no attribute get")
        | _ => .error (.pyerr "AttributeError: value has no attribute get"))

/-- The store as the caller observes it after a request: unchanged
when the request raised. -/
def storeAfter (st : Store) : Except PyEx (Store × α) → Store
  | .ok (s, _) => s
  | .error _ => st

/-- The `status.status` string recorded for a booking id, when the
trip exists and its status sub-record is a dict with a string
`status`. -/
def storedStatusStr (st : Store) (tid : String) : Option String :=
  match dGet st tid with
  | some (.obj m) =>
      match dGet m "status" with
      | some (.obj sm) =>
          match dGet sm "status" with
          | some (.str s) => some s
          | _ => none
      | _ => none
  | _ => none

/-- The raw value of the trip's `status` child, when the trip
exists. -/
def storedStatusVal (st : Store) (tid : String) : Option Val :=
  match dGet st tid with
  | some (.obj m) => dGet m "status"
  | _ => none

/-! ### Dictionary lemmas -/

theorem dGet_dSet_self (m : Obj) (k : String) (v : Val) :
    dGet (dSet m k v) k = some v := by
  induction m with
  | nil => simp [dSet, dGet]
  | cons e rest ih =>
      obtain ⟨k0, v0⟩ := e
      by_cases h : k0 = k
      · subst h; simp [dSet, dGet]
      · simp [dSet, dGet, h, ih]

theorem dGet_dSet_ne (m : Obj) (k k' : String) (v : Val) (h : k' ≠ k) :
    dGet (dSet m k' v) k = dGet m k := by
  induction m with
  | nil => simp [dSet, dGet, h]
  | cons e rest ih =>
      obtain ⟨k0, v0⟩ := e
      by_cases h0 : k0 = k'
      · subst h0; simp [dSet, dGet, h]
      · simp [dSet, dGet, h0]
        by_cases h1 : k0 = k
        · simp [h1]
        · simp [h1, ih]

theorem dGet_of_mem_nodup {st : Store} {k : String} {v : Val}
    (hnd : (st.map Prod.fst).Nodup) (hmem : (k, v) ∈ st) :
    dGet st k = some v := by
  induction st with
  | nil => cases hmem
  | cons e rest ih =>
      obtain ⟨k0, v0⟩ := e
      rcases List.mem_cons.mp hmem with heq | hmem'
      · cases heq; simp [dGet]
      · have hk : k0 ≠ k := by
          intro h
          subst h
          exact (List.nodup_cons.mp hnd).1
            (by simpa using List.mem_map_of_mem Prod.fst hmem')
        simp only [dGet, hk, if_neg hk]
        exact ih (List.nodup_cons.mp hnd).2 hmem'

theorem dMerge_pair (m : Obj) (a b : String) (x y : Val) :
    dMerge m [(a, x), (b, y)] = dSet (dSet m a x) b y := rfl

/-! ### Store-write frame lemmas -/

theorem storeChildMerge_frame (st : Store) (tid tid' key : String) (kvs : Obj)
    (h : tid' ≠ tid) :
    dGet (storeChildMerge st tid' key kvs) tid = dGet st tid := by
  simp only [storeChildMerge]
  split <;> exact dGet_dSet_ne _ _ _ _ h

theorem storeChildMerge_self (st : Store) (tid key : String) (kvs : Obj) (trip : Obj)
    (h : dGet st tid = some (.obj trip)) :
    dGet (storeChildMerge st tid key kvs) tid
      = some (.obj (dSet trip key (childMergeVal (dGet trip key) kvs))) := by
  simp only [storeChildMerge, h]
  exact dGet_dSet_self _ _ _

/-! ### History-loop lemmas -/

theorem processAll_frame (now : PDateTime) (ist : String) (tid : String) :
    ∀ (l : List (String × Obj)) (st st' : Store) (outs : List TripOut),
    processAll now ist st l = .ok (st', outs) → tid ∉ l.map Prod.fst →
    dGet st' tid = dGet st tid := by
  intro l
  induction l with
  | nil =>
      intro st st' outs hok _
      simp only [processAll, Except.ok.injEq, Prod.mk.injEq] at hok
      rw [← hok.1]
  | cons e rest ih =>
      obtain ⟨tid0, trip0⟩ := e
      intro st st' outs hok hnm
      simp only [List.map_cons, List.mem_cons, not_or] at hnm
      obtain ⟨hne, hnm'⟩ := hnm
      simp only [processAll] at hok
      cases h0 : tripStep now tid0 trip0 with
      | error e0 => simp only [h0] at hok; cases hok
      | ok p =>
          obtain ⟨exp, out⟩ := p
          simp only [h0] at hok
          cases h1 : processAll now ist
              (if exp then storeChildMerge st tid0 "status" (regretKvs ist) else st) rest with
          | error e1 => simp only [h1] at hok; cases hok
          | ok q =>
              obtain ⟨st2, outs2⟩ := q
              simp only [h1, Except.ok.injEq, Prod.mk.injEq] at hok
              obtain ⟨rfl, rfl⟩ := hok
              rw [ih _ _ _ h1 hnm']
              cases exp
              · rfl
              · exact storeChildMerge_frame st tid tid0 "status" (regretKvs ist) (Ne.symm hne)

theorem processAll_entry (now : PDateTime) (ist : String) (tid : String) (trip : Obj)
    (exp : Bool) (out : TripOut) :
    ∀ (l : List (String × Obj)) (st st' : Store) (outs : List TripOut),
    processAll now ist st l = .ok (st', outs) →
    (l.map Prod.fst).Nodup →
    (tid, trip) ∈ l →
    dGet st tid = some (.obj trip) →
    tripStep now tid trip = .ok (exp, out) →
    out ∈ outs ∧
    dGet st' tid = some (.obj (if exp then
        dSet trip "status" (childMergeVal (dGet trip "status") (regretKvs ist))
      else trip)) := by
  intro l
  induction l with
  | nil => intro st st' outs _ _ hmem; cases hmem
  | cons e rest ih =>
      obtain ⟨tid0, trip0⟩ := e
      intro st st' outs hok hnd hmem hst hstep
      simp only [List.map_cons] at hnd
      have hnd' := List.nodup_cons.mp hnd
      simp only [processAll] at hok
      rcases List.mem_cons.mp hmem with heq | hmem'
      · cases heq
        simp only [hstep] at hok
        cases h1 : processAll now ist
            (if exp then storeChildMerge st tid "status" (regretKvs ist) else st) rest with
        | error e1 => simp only [h1] at hok; cases hok
        | ok q =>
            obtain ⟨st2, outs2⟩ := q
            simp only [h1, Except.ok.injEq, Prod.mk.injEq] at hok
            obtain ⟨rfl, rfl⟩ := hok
            refine ⟨List.mem_cons_self _ _, ?_⟩
            have hfr := processAll_frame now ist tid rest _ _ _ h1 hnd'.1
            rw [hfr]
            cases exp
            · simpa using hst
            · simpa using storeChildMerge_self st tid "status" (regretKvs ist) trip hst
      · have hne : tid0 ≠ tid := by
          intro h
          subst h
          exact hnd'.1 (by simpa using List.mem_map_of_mem Prod.fst hmem')
        cases h0 : tripStep now tid0 trip0 with
        | error e0 => simp only [h0] at hok; cases hok
        | ok p =>
            obtain ⟨e0, o0⟩ := p
            simp only [h0] at hok
            cases h1 : processAll now ist
                (if e0 then storeChildMerge st tid0 "status" (regretKvs ist) else st) rest with
            | error e1 => simp only [h1] at hok; cases hok
            | ok q =>
                obtain ⟨st2, outs2⟩ := q
                simp only [h1, Except.ok.injEq, Prod.mk.injEq] at hok
                obtain ⟨rfl, rfl⟩ := hok
                have hst1 : dGet (if e0 then
                    storeChildMerge st tid0 "status" (regretKvs ist) else st) tid
                    = some (.obj trip) := by
                  cases e0
                  · simpa using hst
                  · simpa [storeChildMerge_frame st tid tid0 "status" (regretKvs ist) hne]
                      using hst
                have hres := ih _ _ _ h1 hnd'.2 hmem' hst1 hstep
                exact ⟨List.mem_cons_of_mem _ hres.1, hres.2⟩

/-! ### Per-trip step characterizations -/

/-- The stored status sub-record as the history code reads it: the
empty dict when the key is absent, `none` when it is a non-dict
scalar (which makes the Python loop raise). -/
def statusObjOf (trip : Obj) : Option Obj :=
  match dGet trip "status" with
  | none => some []
  | some (.obj sm) => some sm
  | some _ => none

theorem formatTrip_of_statusObj {trip sm : Obj} (tid : String)
    (h : statusObjOf trip = some sm) :
    formatTrip tid trip = .ok (formatWith tid trip sm) := by
  unfold statusObjOf at h
  unfold formatTrip
  cases hs : dGet trip "status" with
  | none => simp [hs] at h; subst h; simp [dGetD, hs]
  | some v =>
      cases v with
      | nul => simp [hs] at h
      | str s => simp [hs] at h
      | obj m => simp [hs] at h; subst h; simp [dGetD, hs]

theorem statusValOf_of_statusObj {trip sm : Obj}
    (h : statusObjOf trip = some sm) :
    statusValOf trip = .ok (dGetD sm "status" (.str "pending")) := by
  unfold statusObjOf at h
  unfold statusValOf
  cases hs : dGet trip "status" with
  | none => simp [hs] at h; subst h; simp [dGetD, hs]
  | some v =>
      cases v with
      | nul => simp [hs] at h
      | str s => simp [hs] at h
      | obj m => simp [hs] at h; subst h; simp [dGetD, hs]

/-- A trip whose date does not parse never expires: its step returns
its stored (defaulted) status shape and flags no write. -/
theorem tripStep_noparse (now : PDateTime) (tid : String) {trip sm : Obj}
    (hsm : statusObjOf trip = some sm)
    (hbd : bookingDateOf trip = none) :
    tripStep now tid trip = .ok (false, formatWith tid trip sm) := by
  unfold tripStep
  rw [show expiresB now trip = .ok false by
        unfold expiresB
        rw [statusValOf_of_statusObj hsm, hbd]]
  rw [formatTrip_of_statusObj tid hsm]

/-- A pending trip with a parsed date expires exactly when the
parsed midnight is `datetime`-before `now`. -/
theorem tripStep_pending (now : PDateTime) (tid : String) {trip sm : Obj}
    {s : String} {d : PDate}
    (hstatus : dGet trip "status" = some (.obj sm))
    (hpend : dGet sm "status" = some (.str "pending"))
    (hdate : dGet trip "date" = some (.str s))
    (hparse : parseDate s = some d) :
    tripStep now tid trip =
      .ok (dtLt (midnight d) now,
           if dtLt (midnight d) now then
             formatWith tid (dSet trip "status" (.obj [("status", .str "regret")]))
               [("status", .str "regret")]
           else formatWith tid trip sm) := by
  have hsm : statusObjOf trip = some sm := by unfold statusObjOf; rw [hstatus]
  have hsv : statusValOf trip = .ok (.str "pending") := by
    rw [statusValOf_of_statusObj hsm]
    simp [dGetD, hpend]
  have hbd : bookingDateOf trip = some d := by
    simp [bookingDateOf, hdate, hparse]
  have hexp : expiresB now trip = .ok (dtLt (midnight d) now) := by
    unfold expiresB
    rw [hsv, hbd]
    simp [valIsStr]
  unfold tripStep
  rw [hexp]
  cases hlt : dtLt (midnight d) now with
  | false => simp [formatTrip_of_statusObj tid hsm]
  | true =>
      have hsm' : statusObjOf (dSet trip "status" (.obj [("status", .str "regret")]))
          = some [("status", .str "regret")] := by
        unfold statusObjOf
        rw [dGet_dSet_self]
      simp [formatTrip_of_statusObj tid hsm']

/-! ### Query and wrapper lemmas -/

theorem wrap500_ok {α : Type} {p : String} {r : Except PyEx α} {a : α}
    (h : wrap500 p r = .ok a) : r = .ok a := by
  cases r with
  | ok b => simpa [wrap500] using h
  | error e => simp [wrap500] at h

theorem historyMatch_mem {store : Store} {email tid : String} {trip : Obj}
    (hmem : (tid, Val.obj trip) ∈ store)
    (he : optValEqStr (dGet trip "customer_email") email = true) :
    (tid, trip) ∈ historyMatch store email := by
  unfold historyMatch
  refine List.mem_filterMap.mpr ⟨(tid, Val.obj trip), hmem, ?_⟩
  simp [he]

theorem historyMatch_keys_sublist (store : Store) (email : String) :
    ((historyMatch store email).map Prod.fst).Sublist (store.map Prod.fst) := by
  induction store with
  | nil => simp [historyMatch]
  | cons e rest ih =>
      obtain ⟨k, v⟩ := e
      cases v with
      | nul => simpa [historyMatch, List.filterMap_cons] using ih.cons k
      | str s => simpa [historyMatch, List.filterMap_cons] using ih.cons k
      | obj m =>
          by_cases he : optValEqStr (dGet m "customer_email") email = true
          · simpa [historyMatch, List.filterMap_cons, he] using ih.cons₂ k
          · simp only [Bool.not_eq_true] at he
            simpa [historyMatch, List.filterMap_cons, he] using ih.cons k

theorem historyMatch_nodup {store : Store} (email : String)
    (h : (store.map Prod.fst).Nodup) :
    ((historyMatch store email).map Prod.fst).Nodup :=
  List.Nodup.sublist (historyMatch_keys_sublist store email) h

/-! ### Success of the history loop on well-formed snapshots -/

theorem expiresB_ok_of_statusObj (now : PDateTime) {trip sm : Obj}
    (hsm : statusObjOf trip = some sm) :
    ∃ b, expiresB now trip = .ok b := by
  unfold expiresB
  rw [statusValOf_of_statusObj hsm]
  exact ⟨_, rfl⟩

theorem tripStep_ok_of_statusObj (now : PDateTime) (tid : String) {trip sm : Obj}
    (hsm : statusObjOf trip = some sm) :
    ∃ r, tripStep now tid trip = .ok r := by
  obtain ⟨b, hexp⟩ := expiresB_ok_of_statusObj now hsm
  unfold tripStep
  rw [hexp]
  cases b with
  | false => exact ⟨_, by rw [formatTrip_of_statusObj tid hsm]⟩
  | true =>
      have h2 : statusObjOf (dSet trip "status" (.obj [("status", .str "regret")]))
          = some [("status", .str "regret")] := by
        unfold statusObjOf
        rw [dGet_dSet_self]
      exact ⟨_, by rw [formatTrip_of_statusObj tid h2]⟩

theorem processAll_ok_of_wf (now : PDateTime) (ist : String) :
    ∀ (l : List (String × Obj)) (st : Store),
    (∀ e ∈ l, ∃ sm, statusObjOf e.2 = some sm) →
    ∃ st' outs, processAll now ist st l = .ok (st', outs) := by
  intro l
  induction l with
  | nil => intro st _; exact ⟨st, [], rfl⟩
  | cons e rest ih =>
      obtain ⟨tid0, trip0⟩ := e
      intro st hwf
      obtain ⟨sm, hsm⟩ := hwf (tid0, trip0) (List.mem_cons_self _ _)
      obtain ⟨⟨exp, out⟩, hstep⟩ := tripStep_ok_of_statusObj now tid0 hsm
      obtain ⟨st2, outs2, h1⟩ := ih
        (if exp then storeChildMerge st tid0 "status" (regretKvs ist) else st)
        (fun e he => hwf e (List.mem_cons_of_mem _ he))
      refine ⟨st2, out :: outs2, ?_⟩
      simp only [processAll, hstep, h1]

/-! ### Claim theorems: expiry in list_trip_history -/

/-- C2 (amended): for a matched trip stored as pending whose date
parses, `get_trip_history` rewrites it to `regret` (merging
`status = "regret"` and `updated_at` = the IST timestamp into the
status sub-record) and reports `regret` in the response, exactly when
the parsed date taken at midnight is `datetime`-before `now`; when
the midnight is at or after `now` the trip is left unchanged and
reported as pending.  In particular a pending trip dated the current
day is expired at any instant after midnight. -/
theorem get_trip_history_expiry_iff_midnight_lt_now
    (auth : Option String) (email : String) (now : PDateTime) (ist : String)
    (store st' : Store) (outs : List TripOut) (tid s : String) (trip sm : Obj)
    (d : PDate)
    (hok : get_trip_history auth email now ist store = .ok (st', outs))
    (hnd : (store.map Prod.fst).Nodup)
    (hmem : (tid, Val.obj trip) ∈ store)
    (hemail : optValEqStr (dGet trip "customer_email") email = true)
    (hstatus : dGet trip "status" = some (.obj sm))
    (hpend : dGet sm "status" = some (.str "pending"))
    (hdate : dGet trip "date" = some (.str s))
    (hparse : parseDate s = some d) :
    (dtLt (midnight d) now = true →
       dGet st' tid = some (.obj (dSet trip "status" (.obj (dMerge sm (regretKvs ist))))) ∧
       dGet (dMerge sm (regretKvs ist)) "status" = some (.str "regret") ∧
       dGet (dMerge sm (regretKvs ist)) "updated_at" = some (.str ist) ∧
       ∃ out ∈ outs, out.booking_id = tid ∧ out.status_status = .str "regret") ∧
    (dtLt (midnight d) now = false →
       dGet st' tid = some (.obj trip) ∧
       ∃ out ∈ outs, out.booking_id = tid ∧ out.status_status = .str "pending") := by
  have hauth : authFail auth = false := by
    cases hf : authFail auth
    · rfl
    · simp [get_trip_history, hf] at hok
  have hok' : processAll now ist store (historyMatch store email) = .ok (st', outs) :=
    wrap500_ok (by simpa [get_trip_history, hauth] using hok)
  have hmm : (tid, trip) ∈ historyMatch store email := historyMatch_mem hmem hemail
  have hnd' := historyMatch_nodup email hnd
  have hst : dGet store tid = some (.obj trip) := dGet_of_mem_nodup hnd hmem
  have hstep := tripStep_pending now tid hstatus hpend hdate hparse
  constructor
  · intro hlt
    rw [hlt, if_pos rfl] at hstep
    have hentry := processAll_entry now ist tid trip true
      (formatWith tid (dSet trip "status" (.obj [("status", .str "regret")]))
        [("status", .str "regret")])
      (historyMatch store email) store st' outs hok' hnd' hmm hst hstep
    refine ⟨?_, ?_, ?_, ?_⟩
    · have := hentry.2
      rw [if_pos rfl] at this
      rw [this, hstatus]
      rfl
    · rw [regretKvs, dMerge_pair]
      rw [dGet_dSet_ne _ _ _ _ (by decide : ("updated_at" : String) ≠ "status")]
      exact dGet_dSet_self _ _ _
    · rw [regretKvs, dMerge_pair]
      exact dGet_dSet_self _ _ _
    · exact ⟨_, hentry.1, rfl, rfl⟩
  · intro hlt
    rw [hlt, if_neg (by simp)] at hstep
    have hentry := processAll_entry now ist tid trip false (formatWith tid trip sm)
      (historyMatch store email) store st' outs hok' hnd' hmm hst hstep
    refine ⟨?_, ?_⟩
    · have := hentry.2
      rw [if_neg (by simp)] at this
      exact this
    · refine ⟨_, hentry.1, rfl, ?_⟩
      simp [formatWith, dGetD, hpend]

/-- C8: a matched trip whose stored date string fails to parse under
`DD/MM/YYYY` is treated as non-expirable: the request still succeeds
(given every matched status sub-record is dict-shaped), the trip's
store record is untouched, and it is returned with its stored
(default-`pending`) status shape. -/
theorem get_trip_history_unparseable_date_nonexpirable
    (auth : Option String) (email : String) (now : PDateTime) (ist : String)
    (store : Store) (tid s : String) (trip sm : Obj)
    (hauth : authFail auth = false)
    (hnd : (store.map Prod.fst).Nodup)
    (hmem : (tid, Val.obj trip) ∈ store)
    (hemail : optValEqStr (dGet trip "customer_email") email = true)
    (hdate : dGet trip "date" = some (.str s))
    (hparse : parseDate s = none)
    (hsm : statusObjOf trip = some sm)
    (hwf : ∀ e ∈ historyMatch store email, ∃ sm0, statusObjOf e.2 = some sm0) :
    ∃ st' outs, get_trip_history auth email now ist store = .ok (st', outs) ∧
      dGet st' tid = some (.obj trip) ∧
      formatWith tid trip sm ∈ outs := by
  obtain ⟨st', outs, hok⟩ := processAll_ok_of_wf now ist (historyMatch store email) store hwf
  have hbd : bookingDateOf trip = none := by simp [bookingDateOf, hdate, hparse]
  have hstep := tripStep_noparse now tid hsm hbd
  have hst : dGet store tid = some (.obj trip) := dGet_of_mem_nodup hnd hmem
  have hmm := historyMatch_mem hmem hemail
  have hnd' := historyMatch_nodup email hnd
  have hentry := processAll_entry now ist tid trip false (formatWith tid trip sm)
      (historyMatch store email) store st' outs hok hnd' hmm hst hstep
  refine ⟨st', outs, ?_, ?_, hentry.1⟩
  · simp [get_trip_history, hauth, hok, wrap500]
  · have h2 := hentry.2
    rw [if_neg (by simp)] at h2
    exact h2

/-! ### find_nearby_trips characterization -/

/-- The in-memory pending test of lines 191–192: the entry is a dict
whose `status` child is a dict whose `status` child is the string
`"pending"`. -/
def pendSelB (e : String × Val) : Bool :=
  match e.2 with
  | .obj m =>
      match dGet m "status" with
      | some (.obj sm) => optValEqStr (dGet sm "status") "pending"
      | _ => false
  | _ => false

theorem nearbyLoop_ok :
    ∀ (l : List (String × Val)) (out : List TripSummary),
    nearbyLoop l = .ok out →
    out = (l.filter pendSelB).map (fun e => mkSummary e.1 (objOf e.2)) := by
  intro l
  induction l with
  | nil =>
      intro out h
      simp only [nearbyLoop, Except.ok.injEq] at h
      simp [← h]
  | cons e rest ih =>
      obtain ⟨tid, v⟩ := e
      intro out h
      cases v with
      | nul => simp [nearbyLoop] at h
      | str s => simp [nearbyLoop] at h
      | obj m =>
          cases hs : dGet m "status" with
          | none =>
              cases hrest : nearbyLoop rest with
              | error e1 => simp [nearbyLoop, dGetD, hs, pyGet, dGet, hrest] at h
              | ok outs =>
                  simp [nearbyLoop, dGetD, hs, pyGet, dGet, optValEqStr, hrest] at h
                  subst h
                  simp [List.filter_cons, pendSelB, hs, ih outs hrest]
          | some v2 =>
              cases v2 with
              | nul => simp [nearbyLoop, dGetD, hs, pyGet] at h
              | str s2 => simp [nearbyLoop, dGetD, hs, pyGet] at h
              | obj sm =>
                  cases hrest : nearbyLoop rest with
                  | error e1 => simp [nearbyLoop, dGetD, hs, pyGet, hrest] at h
                  | ok outs =>
                      by_cases hp : optValEqStr (dGet sm "status") "pending" = true
                      · simp [nearbyLoop, dGetD, hs, pyGet, hrest, hp] at h
                        subst h
                        simp [List.filter_cons, pendSelB, hs, hp, objOf, ih outs hrest]
                      · simp only [Bool.not_eq_true] at hp
                        simp [nearbyLoop, dGetD, hs, pyGet, hrest, hp] at h
                        subst h
                        simp [List.filter_cons, pendSelB, hs, hp, ih outs hrest]

theorem find_nearby_ok (auth : Option String) (from_loc d : String) (store : Store)
    (out : List TripSummary)
    (h : find_nearby_trips auth from_loc d store = .ok out) :
    out = ((store.filter (fun e => dateMatchB d e.2)).filter pendSelB).map
        (fun e => mkSummary e.1 (objOf e.2)) := by
  have hauth : authFail auth = false := by
    cases hf : authFail auth
    · rfl
    · simp [find_nearby_trips, hf] at h
  exact nearbyLoop_ok _ _ (wrap500_ok (by simpa [find_nearby_trips, hauth] using h))

/-! ### Concrete fixtures -/

/-- A stored pending trip with previously recorded driver info in its
status sub-record. -/
def tripPending : Obj :=
  [("customer_email", .str "a@b.c"), ("from_location", .str "X"),
   ("to_location", .str "Y"), ("date", .str "15/06/2025"),
   ("created_at", .str "c0"),
   ("status", .obj [("status", .str "pending"), ("driver_name", .str "Old")])]

def storePending : Store := [("b1", .obj tripPending)]

/-- A stored driver-assigned trip. -/
def tripAssigned : Obj :=
  [("customer_email", .str "a@b.c"), ("from_location", .str "X"),
   ("to_location", .str "Y"), ("date", .str "15/06/2025"),
   ("created_at", .str "c0"),
   ("status", .obj [("status", .str "driver_assigned")])]

def storeAssigned : Store := [("b2", .obj tripAssigned)]

/-- A stored trip with no status sub-record and a date that does not
parse under DD/MM/YYYY. -/
def tripNoStatus : Obj :=
  [("customer_email", .str "n@b.c"), ("from_location", .str "Z"),
   ("to_location", .str "W"), ("date", .str "soon"), ("created_at", .str "c9")]

def storeNoStatus : Store := [("b9", .obj tripNoStatus)]

/-- A store with a pending, a driver-assigned and a status-less trip
all dated 15/06/2025 except the status-less one. -/
def storeNearby : Store :=
  storePending ++ storeAssigned ++ [("b3", .obj [("date", .str "15/06/2025")])]

/-! ### Claim theorems: update_trip_status -/

/-- C1: no `update_trip_status` call ever succeeds — line 159 passes
a list of tuples to the client's `update`, which deterministically
raises `ValueError` before any write, and the blanket `except` turns
it into a 500 — so the claimed successful sub-record merge and
confirmation message are unreachable.  Evaluated at the failing
input: a valid `trip_completed` update of an existing pending trip
returns the 500 and leaves the trip untouched. -/
theorem update_trip_status_never_succeeds :
    (∀ (auth : Option String) (bid status : String)
       (de dn dp vn : Option String) (ist : String) (store : Store)
       (r : Store × String),
       update_trip_status auth bid status de dn dp vn ist store ≠ .ok r) ∧
    update_trip_status (some "Bearer d") "b1" "trip_completed" none none none none
        "IST2" storePending
      = .error (.http 500
          "Failed to update trip status: Value argument must be a non-empty dictionary.") ∧
    storeAfter storePending
        (update_trip_status (some "Bearer d") "b1" "trip_completed" none none none
          none "IST2" storePending)
      = storePending ∧
    storedStatusStr storePending "b1" = some "pending" := by
  refine ⟨?_, rfl, rfl, rfl⟩
  intro auth bid status de dn dp vn ist store r h
  cases hf : authFail auth with
  | true => simp [update_trip_status, hf] at h
  | false =>
      simp only [update_trip_status, hf] at h
      rw [if_neg (by simp)] at h
      have h2 := wrap500_ok h
      cases hg : dGet store bid with
      | none => simp [hg] at h2
      | some v =>
          simp only [hg] at h2
          cases v with
          | nul => simp [isFalsy] at h2
          | str s =>
              by_cases he : s = ""
              · subst he
                simp [isFalsy] at h2
              · simp [isFalsy, he] at h2
          | obj m =>
              cases hm : m.isEmpty with
              | true => simp [isFalsy, hm] at h2
              | false =>
                  simp only [isFalsy, hm] at h2
                  rw [if_neg (by simp)] at h2
                  by_cases hs : status = "driver_assigned"
                  · cases hd : driverFieldsOk de dn dp vn <;>
                      simp [hs, hd] at h2
                  · simp [hs] at h2

/-- Witness for C1 applying the universal part at a concrete input. -/
theorem update_trip_status_never_succeeds_witness :
    update_trip_status (some "Bearer d") "b1" "trip_completed" none none none none
        "IST2" storePending
      ≠ .ok (storePending, "Trip status updated successfully") ∧
    storedStatusStr storePending "b1" = some "pending" :=
  ⟨update_trip_status_never_succeeds.1 (some "Bearer d") "b1" "trip_completed"
      none none none none "IST2" storePending
      (storePending, "Trip status updated successfully"),
   update_trip_status_never_succeeds.2.2.2⟩

/-- C3: a booking id that does not resolve makes `update_trip_status`
fail with 500, not 404 — the 404 raised inside the `try` block is
caught by the blanket `except Exception` and re-raised as Internal
with the original message embedded. -/
theorem update_trip_status_missing_trip_500 (auth : Option String)
    (bid status : String) (de dn dp vn : Option String) (ist : String) (store : Store)
    (hauth : authFail auth = false) (hmiss : dGet store bid = none) :
    update_trip_status auth bid status de dn dp vn ist store
      = .error (.http 500 "Failed to update trip status: 404: Trip not found") := by
  simp only [update_trip_status, hauth, hmiss]
  rfl

/-- Witness for C3 at a concrete input. -/
theorem update_trip_status_missing_trip_500_witness :
    update_trip_status (some "Bearer t") "zz" "pending" none none none none "I" []
      = .error (.http 500 "Failed to update trip status: 404: Trip not found") :=
  update_trip_status_missing_trip_500 (some "Bearer t") "zz" "pending"
    none none none none "I" [] rfl rfl

/-- C5: with `status = "driver_assigned"` and at least one driver
field missing, `update_trip_status` performs no mutation but fails
with 500, not 400 — the 400 raised inside the `try` block is caught
by the blanket `except Exception` and re-raised as Internal. -/
theorem update_trip_status_missing_driver_500 (auth : Option String)
    (bid : String) (de dn dp vn : Option String) (ist : String) (store : Store)
    (m : Obj)
    (hauth : authFail auth = false)
    (htrip : dGet store bid = some (.obj m)) (hm : m.isEmpty = false)
    (hmissing : de = none ∨ dn = none ∨ dp = none ∨ vn = none) :
    update_trip_status auth bid "driver_assigned" de dn dp vn ist store
      = .error (.http 500
          "Failed to update trip status: 400: Driver details required for assignment") ∧
    storeAfter store (update_trip_status auth bid "driver_assigned" de dn dp vn ist store)
      = store := by
  have hdrv : driverFieldsOk de dn dp vn = false := by
    rcases hmissing with rfl | rfl | rfl | rfl <;> simp [driverFieldsOk]
  have h1 : update_trip_status auth bid "driver_assigned" de dn dp vn ist store
      = .error (.http 500
          "Failed to update trip status: 400: Driver details required for assignment") := by
    simp only [update_trip_status, hauth, htrip, hdrv, isFalsy, hm]
    rfl
  exact ⟨h1, by rw [h1]; rfl⟩

/-- Witness for C5 at a concrete input. -/
theorem update_trip_status_missing_driver_500_witness :
    update_trip_status (some "Bearer t") "b1" "driver_assigned" (some "d@e.f")
        none none none "I" storePending
      = .error (.http 500
          "Failed to update trip status: 400: Driver details required for assignment") ∧
    storeAfter storePending
        (update_trip_status (some "Bearer t") "b1" "driver_assigned" (some "d@e.f")
          none none none "I" storePending)
      = storePending :=
  update_trip_status_missing_driver_500 (some "Bearer t") "b1" (some "d@e.f")
    none none none "I" storePending tripPending rfl rfl rfl
    (Or.inr (Or.inl rfl))

/-! ### Claim theorems: edit_trip / delete_trip preconditions -/

/-- C4: on an existing trip whose status.status is a string other
than `pending`, `edit_trip` and `delete_trip` leave the store
untouched (the trip is still present) but fail with 500, not 400 —
each 400 raised inside the `try` block is caught by the blanket
`except Exception` and re-raised as Internal. -/
theorem edit_delete_nonpending_500 (auth : Option String)
    (tid fl tl dt ist : String) (store : Store) (m sm : Obj) (s : String)
    (hauth : authFail auth = false)
    (htrip : dGet store tid = some (.obj m)) (hm : m.isEmpty = false)
    (hstv : dGet m "status" = some (.obj sm))
    (hs : dGet sm "status" = some (.str s)) (hns : s ≠ "pending") :
    edit_trip auth tid fl tl dt ist store
      = .error (.http 500 "Failed to update trip: 400: Can only edit pending trips") ∧
    delete_trip auth tid store
      = .error (.http 500 "Failed to delete trip: 400: Can only delete pending trips") ∧
    storeAfter store (edit_trip auth tid fl tl dt ist store) = store ∧
    storeAfter store (delete_trip auth tid store) = store ∧
    dGet store tid = some (.obj m) := by
  have hopt : optValEqStr (dGet sm "status") "pending" = false := by
    simp [optValEqStr, hs, hns]
  have h1 : edit_trip auth tid fl tl dt ist store
      = .error (.http 500 "Failed to update trip: 400: Can only edit pending trips") := by
    simp only [edit_trip, hauth, htrip, isFalsy, hm, dGetD, hstv, Option.getD, hopt]
    rfl
  have h2 : delete_trip auth tid store
      = .error (.http 500 "Failed to delete trip: 400: Can only delete pending trips") := by
    simp only [delete_trip, hauth, htrip, isFalsy, hm, dGetD, hstv, Option.getD, hopt]
    rfl
  exact ⟨h1, h2, by rw [h1]; rfl, by rw [h2]; rfl, htrip⟩

/-- Witness for C4 at a concrete input. -/
theorem edit_delete_nonpending_500_witness :
    edit_trip (some "Bearer t") "b2" "A" "B" "01/01/2030" "I" storeAssigned
      = .error (.http 500 "Failed to update trip: 400: Can only edit pending trips") ∧
    delete_trip (some "Bearer t") "b2" storeAssigned
      = .error (.http 500 "Failed to delete trip: 400: Can only delete pending trips") ∧
    storeAfter storeAssigned (edit_trip (some "Bearer t") "b2" "A" "B" "01/01/2030" "I" storeAssigned)
      = storeAssigned ∧
    storeAfter storeAssigned (delete_trip (some "Bearer t") "b2" storeAssigned)
      = storeAssigned ∧
    dGet storeAssigned "b2" = some (.obj tripAssigned) :=
  edit_delete_nonpending_500 (some "Bearer t") "b2" "A" "B" "01/01/2030" "I"
    storeAssigned tripAssigned [("status", .str "driver_assigned")] "driver_assigned"
    rfl rfl rfl rfl rfl (by decide)

/-! ### Claim C2: counterexample fixtures -/

/-- Modelled from the spec: the claim's trigger condition "its date is
strictly before the current date", a calendar-date comparison that
ignores the time of day (to be compared with the code's `datetime`
comparison in `expiresB`). -/
def specDateStrictlyBefore (d : PDate) (now : PDateTime) : Bool :=
  if d.year ≠ now.year then decide (d.year < now.year)
  else if d.month ≠ now.month then decide (d.month < now.month)
  else decide (d.day < now.day)

/-- The store after the same-day expiry of `storePending`'s trip. -/
def storeRegret : Store :=
  [("b1", .obj
     [("customer_email", .str "a@b.c"), ("from_location", .str "X"),
      ("to_location", .str "Y"), ("date", .str "15/06/2025"),
      ("created_at", .str "c0"),
      ("status", .obj [("status", .str "regret"), ("driver_name", .str "Old"),
                       ("updated_at", .str "IST1")])])]

/-- The response record for the same-day-expired trip. -/
def outRegret : TripOut :=
  { booking_id := "b1", customer_email := some (.str "a@b.c"),
    from_location := some (.str "X"), to_location := some (.str "Y"),
    date := some (.str "15/06/2025"), created_at := some (.str "c0"),
    updated_at := none, status_status := .str "regret",
    driver_email := none, driver_name := none, driver_phone := none,
    vehicle_number := none, assigned_at := none, completed_at := none }

/-- C2 (counterexample): a pending trip dated 15/06/2025, read at
noon of 15/06/2025 — i.e. on the current date, NOT strictly before
it — is nevertheless rewritten to `regret` in the store and reported
as `regret`, because line 79 compares the parsed midnight `datetime`
against `datetime.now()` rather than comparing calendar dates. -/
theorem get_trip_history_expires_same_day_trip :
    parseDate "15/06/2025" = some ⟨15, 6, 2025⟩ ∧
    specDateStrictlyBefore ⟨15, 6, 2025⟩ ⟨2025, 6, 15, 12, 0, 0⟩ = false ∧
    storedStatusStr storePending "b1" = some "pending" ∧
    get_trip_history (some "Bearer t") "a@b.c" ⟨2025, 6, 15, 12, 0, 0⟩ "IST1"
        storePending
      = .ok (storeRegret, [outRegret]) ∧
    storedStatusStr storeRegret "b1" = some "regret" :=
  ⟨rfl, rfl, rfl, rfl, rfl⟩

/-- Witness for the amended C2 theorem at the same concrete input. -/
theorem get_trip_history_expiry_iff_midnight_lt_now_witness :
    dGet storeRegret "b1"
      = some (.obj (dSet tripPending "status"
          (.obj (dMerge [("status", Val.str "pending"), ("driver_name", Val.str "Old")]
            (regretKvs "IST1"))))) ∧
    dtLt (midnight ⟨15, 6, 2025⟩) ⟨2025, 6, 15, 12, 0, 0⟩ = true := by
  have h := get_trip_history_expiry_iff_midnight_lt_now (some "Bearer t") "a@b.c"
      ⟨2025, 6, 15, 12, 0, 0⟩ "IST1" storePending storeRegret [outRegret] "b1"
      "15/06/2025" tripPending
      [("status", Val.str "pending"), ("driver_name", Val.str "Old")]
      ⟨15, 6, 2025⟩ rfl (by decide) (List.mem_singleton.mpr rfl) rfl rfl rfl rfl rfl
  exact ⟨(h.1 rfl).1, rfl⟩

/-! ### Claim C6: find_nearby_trips returns exactly the pending date matches -/

/-- C6: every successful `find_nearby_trips` response lists exactly
the stored trips whose `date` child equals the input string and whose
status sub-record carries the string `"pending"`, in store order, as
summary records (`TripSummary` has no status and no driver fields by
shape). -/
theorem find_nearby_trips_exact (auth : Option String) (from_loc d : String)
    (store : Store) (out : List TripSummary)
    (h : find_nearby_trips auth from_loc d store = .ok out) :
    out = ((store.filter (fun e => dateMatchB d e.2)).filter pendSelB).map
        (fun e => mkSummary e.1 (objOf e.2)) :=
  find_nearby_ok auth from_loc d store out h

/-- Witness for C6 at a concrete store holding a pending, a
driver-assigned and a status-less trip on the queried date. -/
theorem find_nearby_trips_exact_witness :
    [mkSummary "b1" tripPending]
      = ((storeNearby.filter (fun e => dateMatchB "15/06/2025" e.2)).filter
          pendSelB).map (fun e => mkSummary e.1 (objOf e.2)) :=
  find_nearby_trips_exact (some "Bearer t") "X" "15/06/2025" storeNearby
    [mkSummary "b1" tripPending] rfl

/-! ### Claim C7: missing or malformed bearer header -/

/-- C7: on each of the five operations, a missing header or one
without the `"Bearer "` prefix yields 401 with the same detail, for
every store and every argument — the result does not depend on the
store, so no store interaction can be observed. -/
theorem auth_missing_or_malformed_401 (auth : Option String)
    (h : auth = none ∨ ∃ s, auth = some s ∧ ("Bearer ".data).isPrefixOf s.data = false) :
    (∀ email now ist store,
       get_trip_history auth email now ist store = .error (.http 401 authMsg)) ∧
    (∀ bid status de dn dp vn ist store,
       update_trip_status auth bid status de dn dp vn ist store
         = .error (.http 401 authMsg)) ∧
    (∀ fl d store, find_nearby_trips auth fl d store = .error (.http 401 authMsg)) ∧
    (∀ tid fl tl d ist store,
       edit_trip auth tid fl tl d ist store = .error (.http 401 authMsg)) ∧
    (∀ tid store, delete_trip auth tid store = .error (.http 401 authMsg)) := by
  have hf : authFail auth = true := by
    rcases h with rfl | ⟨s, rfl, hs⟩
    · rfl
    · simp [authFail, hs]
  refine ⟨fun _ _ _ _ => ?_, fun _ _ _ _ _ _ _ _ => ?_, fun _ _ _ => ?_,
          fun _ _ _ _ _ _ => ?_, fun _ _ => ?_⟩ <;>
    simp [get_trip_history, update_trip_status, find_nearby_trips, edit_trip,
      delete_trip, hf]

/-- Witness for C7: the five operations at a missing header. -/
theorem auth_missing_or_malformed_401_witness :
    get_trip_history none "a@b.c" ⟨2025, 1, 1, 0, 0, 0⟩ "I" storePending
      = .error (.http 401 authMsg) ∧
    update_trip_status none "b1" "pending" none none none none "I" storePending
      = .error (.http 401 authMsg) ∧
    find_nearby_trips none "X" "15/06/2025" storePending
      = .error (.http 401 authMsg) ∧
    edit_trip none "b1" "A" "B" "01/01/2030" "I" storePending
      = .error (.http 401 authMsg) ∧
    delete_trip none "b1" storePending = .error (.http 401 authMsg) := by
  have h := auth_missing_or_malformed_401 none (Or.inl rfl)
  exact ⟨h.1 _ _ _ _, h.2.1 _ _ _ _ _ _ _ _, h.2.2.1 _ _ _,
         h.2.2.2.1 _ _ _ _ _ _, h.2.2.2.2 _ _⟩

/-- Witness for C8: a matched trip with unparseable date `"soon"` and
no status sub-record is returned (default-pending) and unmutated. -/
theorem get_trip_history_unparseable_date_nonexpirable_witness :
    dGet storeNoStatus "b9" = some (.obj tripNoStatus) ∧
    formatWith "b9" tripNoStatus [] ∈ [formatWith "b9" tripNoStatus []] := by
  obtain ⟨st', outs, h1, h2, h3⟩ :=
    get_trip_history_unparseable_date_nonexpirable (some "Bearer t") "n@b.c"
      ⟨2025, 1, 1, 0, 0, 0⟩ "I" storeNoStatus "b9" "soon" tripNoStatus []
      rfl (by decide) (List.mem_singleton.mpr rfl) rfl rfl rfl rfl
      (by
        intro e he
        have hl : historyMatch storeNoStatus "n@b.c" = [("b9", tripNoStatus)] := rfl
        rw [hl] at he
        rcases List.mem_singleton.mp he with rfl
        exact ⟨[], rfl⟩)
  have h4 : (Except.ok (st', outs) : Except PyEx (Store × List TripOut))
      = .ok (storeNoStatus, [formatWith "b9" tripNoStatus []]) :=
    h1.symm.trans rfl
  simp only [Except.ok.injEq, Prod.mk.injEq] at h4
  obtain ⟨rfl, rfl⟩ := h4
  exact ⟨h2, h3⟩

/-! ### Claim C9: exact shape of the bearer check -/

/-- C9: the shared check rejects with 401 exactly when the header is
absent or does not start with the 7-character prefix `"Bearer "` (an
absent header and the falsy empty string both lack the prefix); the
literal header `"Bearer "` — an empty token — passes, and the request
proceeds to the store (here: a delete actually executes). -/
theorem auth_check_iff_bearer_header :
    (∀ a : Option String, authFail a = true ↔
       (a = none ∨ ∃ s, a = some s ∧ ("Bearer ".data).isPrefixOf s.data = false)) ∧
    authFail (some "Bearer ") = false ∧
    ("Bearer " : String).length = 7 ∧
    delete_trip (some "Bearer ") "b1" storePending
      = .ok ([], "Trip deleted successfully") := by
  refine ⟨?_, rfl, rfl, rfl⟩
  intro a
  cases a with
  | none => simp [authFail]
  | some s =>
      simp only [authFail]
      constructor
      · intro h
        refine Or.inr ⟨s, rfl, ?_⟩
        simp at h
        rcases h with h1 | h2
        · subst h1
          rfl
        · exact h2
      · intro h
        rcases h with h | ⟨t, ht, hsw⟩
        · exact absurd h (by simp)
        · injection ht with ht2
          subst ht2
          simp [hsw]

/-- Witness for C9. -/
theorem auth_check_iff_bearer_header_witness :
    authFail none = true ∧ authFail (some "Bearer ") = false :=
  ⟨(auth_check_iff_bearer_header.1 none).mpr (Or.inl rfl),
   auth_check_iff_bearer_header.2.1⟩

/-! ### Claim C10: absent status is not pending for find_nearby_trips -/

/-- C10: a trip whose status sub-record is absent, or whose inner
status field is unset, is never listed by `find_nearby_trips` — the
pending filter (line 192) reads the field with no default — while
`get_trip_history` (lines 78 and 97) defaults the same absent status
to `"pending"`: the status-less trip is returned by the history read
(unchanged, reported pending) yet excluded by the nearby query on its
own date. -/
theorem find_nearby_absent_status_excluded :
    (∀ (auth : Option String) (fl d : String) (store : Store)
       (out : List TripSummary) (tid : String) (m : Obj),
       find_nearby_trips auth fl d store = .ok out →
       (store.map Prod.fst).Nodup →
       (tid, Val.obj m) ∈ store →
       (dGet m "status" = none ∨
        ∃ sm, dGet m "status" = some (.obj sm) ∧ dGet sm "status" = none) →
       ∀ t ∈ out, t.booking_id ≠ tid) ∧
    (∀ now ist, get_trip_history (some "Bearer t") "n@b.c" now ist storeNoStatus
       = .ok (storeNoStatus, [formatWith "b9" tripNoStatus []])) ∧
    (formatWith "b9" tripNoStatus []).status_status = .str "pending" ∧
    find_nearby_trips (some "Bearer t") "L" "soon" storeNoStatus = .ok [] := by
  refine ⟨?_, fun now ist => rfl, rfl, rfl⟩
  intro auth fl d store out tid m hok hnd hmem hunset t ht
  rw [find_nearby_ok auth fl d store out hok] at ht
  obtain ⟨e, he, rfl⟩ := List.mem_map.mp ht
  obtain ⟨k, v⟩ := e
  intro hbid
  have hk : k = tid := hbid
  subst hk
  obtain ⟨he1, hp⟩ := List.mem_filter.mp he
  obtain ⟨he2, _⟩ := List.mem_filter.mp he1
  have hgv : dGet store k = some v := dGet_of_mem_nodup hnd he2
  have hgm : dGet store k = some (.obj m) := dGet_of_mem_nodup hnd hmem
  rw [hgv] at hgm
  injection hgm with hvm
  subst hvm
  rcases hunset with h0 | ⟨sm, h1, h2⟩
  · simp [pendSelB, h0] at hp
  · simp [pendSelB, h1, h2, optValEqStr] at hp

/-- Witness for C10 at the concrete status-less trip. -/
theorem find_nearby_absent_status_excluded_witness :
    (∀ t ∈ ([] : List TripSummary), t.booking_id ≠ "b9") ∧
    (formatWith "b9" tripNoStatus []).status_status = .str "pending" :=
  ⟨find_nearby_absent_status_excluded.1 (some "Bearer t") "L" "soon" storeNoStatus
      [] "b9" tripNoStatus rfl (by decide) (List.mem_singleton.mpr rfl) (Or.inl rfl),
   find_nearby_absent_status_excluded.2.2.1⟩
